import Mathlib

/-!
Verification of the HTML text-extraction engine of the repository
(src/app/api/fetch-html/route.ts) against its natural-language specification.

The engine is shallowly embedded: the parsed HTML document (the spec treats the
HTML parser as an external collaborator) is a `Dom` tree in first-child /
next-sibling form, mirroring the cheerio / parse5 DOM with lowercased tag names.
Each helper of the route module (`extractText`, `wordWrap`,
`extractStructuredText`, the validation part of `POST`) is translated into an
executable Lean function over this tree.  JavaScript string primitives used by
the source (`trim`, `replace(/\s+/g, " ")`, `replace(/\n{3,}/g, "\n\n")`,
`replace(/^\s+|\s+$/g, "")`, `split(" ")`, `toLowerCase`, `toUpperCase`,
`repeat`) are modelled by structurally recursive functions over `List Char`,
with whitespace restricted to the ASCII whitespace characters that occur in
HTML text (space, tab, newline, carriage return, vertical tab, form feed).
-/

/-- Parsed DOM forest (first-child / next-sibling form).  `nil` is the empty
forest, `text s next` a text node followed by its siblings, and
`elem tag attrs children next` an element followed by its siblings.  Tag names
are lowercase, as produced by the HTML parser for HTML documents. -/
inductive Dom where
  | nil
  | text (s : String) (next : Dom)
  | elem (tag : String) (attrs : List (String × String)) (children : Dom) (next : Dom)
  deriving DecidableEq

/-- Membership of a string in a list of strings (kernel-friendly `includes`). -/
def memStr (s : String) : List String → Bool
  | [] => false
  | t :: ts => if s = t then true else memStr s ts

/-- First value of the attribute named `name`, if present. -/
def getAttr (name : String) : List (String × String) → Option String
  | [] => none
  | (k, v) :: rest => if k = name then some v else getAttr name rest

/-- ASCII whitespace, the fragment of JavaScript's `\s` class that occurs in
HTML text content. -/
def isWS (c : Char) : Bool :=
  c = ' ' || c = '\t' || c = '\n' || c = '\r' || c = '\x0b' || c = '\x0c'

/-- Drop leading and trailing whitespace from a character list. -/
def trimCL (l : List Char) : List Char :=
  ((l.dropWhile isWS).reverse.dropWhile isWS).reverse

/-- JavaScript `String.prototype.trim` (also used to model the regex
`replace(/^\s+|\s+$/g, "")`, which removes the same maximal leading and trailing
whitespace runs). -/
def jsTrim (s : String) : String := String.mk (trimCL s.data)

/-- JavaScript `toLowerCase` (ASCII letters). -/
def lowerString (s : String) : String := String.mk (s.data.map Char.toLower)

/-- JavaScript `toUpperCase` (ASCII letters). -/
def upperString (s : String) : String := String.mk (s.data.map Char.toUpper)

/-- JavaScript `"c".repeat n`. -/
def repeatChar (c : Char) (n : Nat) : String := String.mk (List.replicate n c)

/-- Scanner for `replace(/\s+/g, " ")`: the flag records whether the previous
character was part of a whitespace run (whose first character was already
emitted as a single space). -/
def collapseWSGo : Bool → List Char → List Char
  | _, [] => []
  | inRun, c :: cs =>
    if isWS c then
      if inRun then collapseWSGo true cs else ' ' :: collapseWSGo true cs
    else c :: collapseWSGo false cs

/-- JavaScript `replace(/\s+/g, " ")`: every maximal whitespace run becomes one
space. -/
def collapseWS (s : String) : String := String.mk (collapseWSGo false s.data)

/-- JavaScript `split(" ")`: split on every single space, keeping empty parts. -/
def splitOnSpace : List Char → List (List Char)
  | [] => [[]]
  | c :: cs =>
    match splitOnSpace cs with
    | [] => [[]]
    | w :: ws => if c = ' ' then [] :: w :: ws else (c :: w) :: ws

/-- JavaScript `Array.prototype.join("\n")`. -/
def joinNL : List String → String
  | [] => ""
  | [s] => s
  | s :: rest => s ++ "\n" ++ joinNL rest

/-- Scanner for `replace(/\n{3,}/g, "\n\n")`: `run` counts the newlines of the
current run already emitted; a run's newlines beyond the second are dropped,
which is exactly what replacing each maximal run of three or more newlines by
two newlines does. -/
def collapseNLGo : Nat → List Char → List Char
  | _, [] => []
  | run, c :: cs =>
    if c = '\n' then
      if 2 ≤ run then collapseNLGo (run + 1) cs
      else c :: collapseNLGo (run + 1) cs
    else c :: collapseNLGo 0 cs

/-- JavaScript `replace(/\n{3,}/g, "\n\n")`. -/
def collapseNL (s : String) : String := String.mk (collapseNLGo 0 s.data)

/-- Character-list test: does `l` start with `pat`? -/
def isPrefixCL : List Char → List Char → Bool
  | [], _ => true
  | _ :: _, [] => false
  | a :: as, b :: bs => if a = b then isPrefixCL as bs else false

/-- Character-list substring test. -/
def containsCL (pat : List Char) : List Char → Bool
  | [] => isPrefixCL pat []
  | c :: rest => if isPrefixCL pat (c :: rest) then true else containsCL pat rest

/-- JavaScript-style plain substring test, used by the `[style*="..."]`
attribute selectors. -/
def containsStr (pat s : String) : Bool := containsCL pat.data s.data

/-- Split a character list on whitespace (for class-token matching). -/
def splitWSCL : List Char → List (List Char)
  | [] => [[]]
  | c :: cs =>
    match splitWSCL cs with
    | [] => [[]]
    | w :: ws => if isWS c then [] :: w :: ws else (c :: w) :: ws

/-- Membership of a character list in a list of character lists. -/
def memCL (w : List Char) : List (List Char) → Bool
  | [] => false
  | x :: xs => if w = x then true else memCL w xs

/-- Selector `tag`: matches elements with that tag name. -/
def tagIs (name : String) (tag : String) (_ : List (String × String)) : Bool :=
  tag = name

/-- Selector `[name]`: matches elements carrying the attribute, any value. -/
def hasAttrName (name : String) (_ : String) (attrs : List (String × String)) : Bool :=
  (getAttr name attrs).isSome

/-- Selector `[name="val"]`: matches elements whose attribute equals `val`. -/
def attrIs (name val : String) (_ : String) (attrs : List (String × String)) : Bool :=
  match getAttr name attrs with
  | none => false
  | some v => v = val

/-- Selector `[style*="sub"]`: textual substring match on the style attribute. -/
def styleContains (sub : String) (_ : String) (attrs : List (String × String)) : Bool :=
  match getAttr "style" attrs with
  | none => false
  | some v => containsStr sub v

/-- Class selector `.tok`: the class attribute, split on whitespace, contains
the token. -/
def classHasToken (tok : String) (_ : String) (attrs : List (String × String)) : Bool :=
  match getAttr "class" attrs with
  | none => false
  | some v => memCL tok.data (splitWSCL v.data)

/-- cheerio `$(sel).remove()`: delete every element matching `p`, together with
its whole subtree, at any depth. -/
def removeMatching (p : String → List (String × String) → Bool) : Dom → Dom
  | .nil => .nil
  | .text s rest => .text s (removeMatching p rest)
  | .elem t a cs rest =>
    if p t a then removeMatching p rest
    else .elem t a (removeMatching p cs) (removeMatching p rest)

/-- The removal passes of `extractText` (route.ts lines 10-31), in source
order.  Because each pass deletes whole subtrees, running the passes in
sequence removes exactly the nodes with an ancestor-or-self matching any one
of the predicates. -/
def readableNoisePreds : List (String → List (String × String) → Bool) :=
  [tagIs "script", tagIs "style", tagIs "noscript", tagIs "iframe", tagIs "svg",
   tagIs "head", tagIs "nav", tagIs "footer", tagIs "header",
   hasAttrName "hidden", styleContains "display: none", styleContains "display:none",
   attrIs "aria-hidden" "true",
   tagIs "button", tagIs "input", tagIs "select", tagIs "form",
   classHasToken "advertisement", classHasToken "ads",
   attrIs "role" "navigation", attrIs "role" "banner", attrIs "role" "complementary"]

/-- Noise filter of the readable-text pipeline. -/
def noiseFilterText (d : Dom) : Dom :=
  readableNoisePreds.foldl (fun acc p => removeMatching p acc) d

/-- The removal passes of `extractStructuredText` (route.ts lines 160-168), in
source order.  Note: no `aria-hidden`, `nav`, `footer`, `header`, form-control,
class or role passes in this pipeline. -/
def structuredNoisePreds : List (String → List (String × String) → Bool) :=
  [tagIs "script", tagIs "style", tagIs "noscript", tagIs "iframe", tagIs "svg",
   tagIs "head",
   hasAttrName "hidden", styleContains "display: none", styleContains "display:none"]

/-- Noise filter of the structured pipeline. -/
def noiseFilterStructured (d : Dom) : Dom :=
  structuredNoisePreds.foldl (fun acc p => removeMatching p acc) d

/-- Concatenated descendant text of a forest (DOM `textContent`, in document
order). -/
def textContent : Dom → String
  | .nil => ""
  | .text s rest => s ++ textContent rest
  | .elem _ _ cs rest => textContent cs ++ textContent rest

/-- cheerio `$(tag).text()`: concatenated `textContent` of every element with
the given tag, in document (pre-)order. -/
def selectText (tag : String) : Dom → String
  | .nil => ""
  | .text _ rest => selectText tag rest
  | .elem t _ cs rest =>
    (if t = tag then textContent cs else "") ++ selectText tag cs ++ selectText tag rest

/-- Children forest of the first `body` element, in document order (cheerio
`$("body")`; an HTML parse has exactly one body). -/
def findBody : Dom → Option Dom
  | .nil => none
  | .text _ rest => findBody rest
  | .elem t _ cs rest =>
    if t = "body" then some cs
    else
      match findBody cs with
      | some b => some b
      | none => findBody rest

/-- cheerio `$el.clone().children(sel).remove().end().text()`: full descendant
text of the element, excluding the subtrees of DIRECT children whose tag is in
`excl` (deeper matching descendants are not excluded).  `cs` is the element's
children forest. -/
def childExcludedText (excl : List String) : Dom → String
  | .nil => ""
  | .text s rest => s ++ childExcludedText excl rest
  | .elem t _ cs rest =>
    (if memStr t excl then "" else textContent cs) ++ childExcludedText excl rest

/-- One step of `wordWrap`'s loop (route.ts lines 142-149).  State: the flushed
lines so far and the current line. -/
def wordWrapStep (maxWidth : Nat) (st : List String × String) (word : String) :
    List String × String :=
  if st.2.length + word.length + 1 ≤ maxWidth then
    (st.1, if st.2 = "" then word else st.2 ++ " " ++ word)
  else
    ((if st.2 = "" then st.1 else st.1 ++ [st.2]), word)

/-- `wordWrap` (route.ts lines 137-153). -/
def wordWrap (text : String) (maxWidth : Nat) : String :=
  let words := (splitOnSpace text.data).map String.mk
  let r := words.foldl (wordWrapStep maxWidth) ([], "")
  joinNL (if r.2 = "" then r.1 else r.1 ++ [r.2])

/-- Selector set of `$("body").find(...)` in `extractText` (route.ts line 47). -/
def readableSelector : List String :=
  ["h1", "h2", "h3", "h4", "h5", "h6", "p", "article", "section", "main",
   "li", "td", "th", "blockquote", "figcaption"]

/-- Ancestor container set of the readable-text skip rule (route.ts line 54). -/
def readableContainers : List String := ["p", "li", "td", "th", "blockquote", "figcaption"]

/-- Heading tags, exempt from the readable-text skip rule (route.ts line 55). -/
def headingTags : List String := ["h1", "h2", "h3", "h4", "h5", "h6"]

/-- Direct-child exclusion set of the readable-text text extraction
(route.ts line 63). -/
def readableExcl : List String := ["script", "style", "nav", "footer", "header", "aside"]

/-- Mutable state of `extractText`'s `.each` loop: the output line buffer and
the seen-text set (a set of lowercased normalized texts; modelled as the list
of its insertions, so that re-insertion would be observable). -/
structure TState where
  lines : List String
  seen : List String
  deriving DecidableEq

/-- Length / dedup gate and formatting switch of `extractText`
(route.ts lines 74-125), applied to the normalized text of one block. -/
def emitReadable (st : TState) (tag text : String) : TState :=
  let lower := lowerString text
  if text.length < 3 ∨ memStr lower st.seen then st
  else
    let st1 : TState := ⟨st.lines, st.seen ++ [lower]⟩
    if tag = "h1" then
      ⟨st1.lines ++ ["", upperString text, repeatChar '=' (Nat.min text.length 50), ""], st1.seen⟩
    else if tag = "h2" then
      ⟨st1.lines ++ ["", text, repeatChar '-' (Nat.min text.length 40), ""], st1.seen⟩
    else if tag = "h3" ∨ tag = "h4" ∨ tag = "h5" ∨ tag = "h6" then
      ⟨st1.lines ++ ["", "[" ++ text ++ "]", ""], st1.seen⟩
    else if tag = "li" then
      ⟨st1.lines ++ ["  - " ++ text], st1.seen⟩
    else if tag = "blockquote" then
      ⟨st1.lines ++ ["", "  \"" ++ text ++ "\"", ""], st1.seen⟩
    else if tag = "td" ∨ tag = "th" then
      ⟨st1.lines ++ ["| " ++ text ++ " |"], st1.seen⟩
    else if tag = "figcaption" then
      ⟨st1.lines ++ ["  (" ++ text ++ ")"], st1.seen⟩
    else
      -- p, article, section, main
      if text.length > 15 then ⟨st1.lines ++ [wordWrap text 80, ""], st1.seen⟩
      else st1

/-- Processing of one matched element in `extractText`'s `.each` callback
(route.ts lines 48-126): skip rule, text extraction, normalization, then
`emitReadable`.  `anc` is the element's strict ancestor tag chain. -/
def processR (anc : List String) (st : TState) (tag : String) (cs : Dom) : TState :=
  if (anc.any fun a => memStr a readableContainers) && !(memStr tag headingTags) then st
  else
    let raw := jsTrim (childExcludedText readableExcl cs)
    if raw = "" then st
    else emitReadable st tag (jsTrim (collapseWS raw))

/-- Document-order traversal of `$("body").find(sel).each(...)` for the
readable-text pipeline: every element whose tag is in the selector set is
processed in pre-order; `anc` carries the ancestor tag chain. -/
def walkR : List String → TState → Dom → TState
  | _, st, .nil => st
  | anc, st, .text _ rest => walkR anc st rest
  | anc, st, .elem tag _ cs rest =>
    let st1 := if memStr tag readableSelector then processR anc st tag cs else st
    walkR anc (walkR (tag :: anc) st1 cs) rest

/-- Final cleanup of `extractText` (route.ts lines 129-133): join with
newlines, collapse 3+ newline runs to 2, strip leading/trailing whitespace
(`replace(/^\s+|\s+$/g, "")`), then `trim()`. -/
def cleanupText (lines : List String) : String :=
  jsTrim (jsTrim (collapseNL (joinNL lines)))

/-- State of `extractText` after the removal passes, the title block, and the
body traversal (route.ts lines 6-126), before the final cleanup.  Note the
source removes `head` (line 15) BEFORE reading `$("title")` (line 37), so the
title of an ordinary document (whose `title` sits inside `head`) is gone by the
time it is read.  The traversal starts at the body's children; ancestors above
`body` never match the container sets. -/
def extractTextState (doc : Dom) : TState :=
  let d := noiseFilterText doc
  let title := jsTrim (selectText "title" d)
  let st0 : TState :=
    if title = "" then ⟨[], []⟩
    else ⟨[title, repeatChar '=' (Nat.min title.length 50), ""], [lowerString title]⟩
  match findBody d with
  | none => st0
  | some cs => walkR ["body"] st0 cs

/-- `extractText` (route.ts lines 6-134), over the parsed document. -/
def extractText (doc : Dom) : String :=
  cleanupText (extractTextState doc).lines

/-- Selector set of the structured pipeline (route.ts line 180). -/
def structuredSelector : List String :=
  ["h1", "h2", "h3", "h4", "h5", "h6", "p", "li", "td", "th",
   "blockquote", "pre", "span", "div", "a"]

/-- Ancestor container set of the structured skip rule (route.ts line 186). -/
def structuredContainers : List String := ["p", "li", "h1", "h2", "h3", "h4", "h5", "h6"]

/-- Tags exempt from the structured skip rule (route.ts line 186). -/
def structuredExempt : List String := ["a", "span"]

/-- Direct-child exclusion set of the structured text extraction
(route.ts line 190). -/
def structuredExcl : List String := ["script", "style"]

/-- Length gate and formatting switch of `extractStructuredText`
(route.ts lines 198-233). -/
def emitStructured (lines : List String) (tag text : String) : List String :=
  if text.length < 2 then lines
  else if tag = "h1" then lines ++ ["", "# " ++ text, ""]
  else if tag = "h2" then lines ++ ["", "## " ++ text, ""]
  else if tag = "h3" then lines ++ ["", "### " ++ text, ""]
  else if tag = "h4" ∨ tag = "h5" ∨ tag = "h6" then lines ++ ["", "#### " ++ text, ""]
  else if tag = "li" then lines ++ ["• " ++ text]
  else if tag = "blockquote" then lines ++ ["> " ++ text]
  else if tag = "pre" then lines ++ ["```", text, "```"]
  else if tag = "p" ∨ tag = "div" then
    if text.length > 20 then lines ++ [text, ""] else lines
  else
    -- span, a, td, th: no case in the switch, no output
    lines

/-- Processing of one matched element in `extractStructuredText`'s `.each`
callback (route.ts lines 181-234). -/
def processS (anc : List String) (lines : List String) (tag : String) (cs : Dom) :
    List String :=
  if (anc.any fun a => memStr a structuredContainers) && !(memStr tag structuredExempt) then
    lines
  else
    let raw := jsTrim (childExcludedText structuredExcl cs)
    if raw = "" then lines
    else emitStructured lines tag (jsTrim (collapseWS raw))

/-- Document-order traversal for the structured pipeline. -/
def walkS : List String → List String → Dom → List String
  | _, lines, .nil => lines
  | anc, lines, .text _ rest => walkS anc lines rest
  | anc, lines, .elem tag _ cs rest =>
    let l1 := if memStr tag structuredSelector then processS anc lines tag cs else lines
    walkS anc (walkS (tag :: anc) l1 cs) rest

/-- Final cleanup of `extractStructuredText` (route.ts lines 237-240): join,
collapse 3+ newline runs, `trim()`. -/
def cleanupStructured (lines : List String) : String :=
  jsTrim (collapseNL (joinNL lines))

/-- Line buffer of `extractStructuredText` before cleanup (route.ts lines
156-234).  The structured noise filter also removes `head` (line 165) before
`$("title")` is read (line 173). -/
def extractStructuredLines (doc : Dom) : List String :=
  let d := noiseFilterStructured doc
  let title := jsTrim (selectText "title" d)
  let lines0 : List String := if title = "" then [] else ["# " ++ title, ""]
  match findBody d with
  | none => lines0
  | some cs => walkS ["body"] lines0 cs

/-- `extractStructuredText` (route.ts lines 156-241). -/
def extractStructuredText (doc : Dom) : String :=
  cleanupStructured (extractStructuredLines doc)

/-- Result of the platform `new URL(...)` constructor, reduced to the fields
the handler reads.  The constructor itself is an external collaborator and is
abstracted as a `String → Option ParsedURL` function (none = the constructor
throws). -/
structure ParsedURL where
  protocol : String
  href : String
  deriving DecidableEq

/-- Observable outcome of the validation part of the POST handler: either an
early JSON error response, or proceeding to the network fetch (which is where
fetching, beautification and extraction happen). -/
inductive PostOutcome where
  | respond (status : Nat) (error : String)
  | fetch (url : String)
  deriving DecidableEq

/-- Validation prefix of the POST handler (route.ts lines 243-263): the JSON
body's `url` field is modelled as `Option String` (`none` = field absent); a
missing or empty (falsy) url yields 400 "URL is required"; a url the URL
constructor rejects, or whose protocol is neither `http:` nor `https:`, yields
400 "Invalid URL format"; otherwise the handler proceeds to fetch. -/
def POST (parseURL : String → Option ParsedURL) (url? : Option String) : PostOutcome :=
  match url? with
  | none => .respond 400 "URL is required"
  | some url =>
    if url = "" then .respond 400 "URL is required"
    else
      match parseURL url with
      | none => .respond 400 "Invalid URL format"
      | some p =>
        if memStr p.protocol ["http:", "https:"] then .fetch p.href
        else .respond 400 "Invalid URL format"

/-- Modelled from the spec: one step of the greedy line packing of §4.5 /
claim C7 — if appending `" " + word` (or the bare word when the line is empty)
keeps the line length ≤ width, append; otherwise flush the (nonempty) current
line and start a new line with the word.  Reference definition for the
refinement claim C7; compare `wordWrapStep`. -/
def greedyStepSpec (w : Nat) (st : List String × String) (word : String) :
    List String × String :=
  if (if st.2 = "" then word.length ≤ w else st.2.length + 1 + word.length ≤ w) then
    (st.1, if st.2 = "" then word else st.2 ++ " " ++ word)
  else
    ((if st.2 = "" then st.1 else st.1 ++ [st.2]), word)

/-- Modelled from the spec: greedy word wrap of §4.5, on the space-separated
words of the text, flushing the final nonempty line; newline-joined.
Reference definition for the refinement claim C7. -/
def greedyWrapSpec (text : String) (maxWidth : Nat) : String :=
  let words := (splitOnSpace text.data).map String.mk
  let r := words.foldl (greedyStepSpec maxWidth) ([], "")
  joinNL (if r.2 = "" then r.1 else r.1 ++ [r.2])

/-- Modelled from the spec: descendant text of a forest excluding the subtrees
of elements with a tag in `excl` at ANY depth (claim C3's reading of the text
extraction).  Compare `childExcludedText`, which excludes direct children
only. -/
def deepExcludedText (excl : List String) : Dom → String
  | .nil => ""
  | .text s rest => s ++ deepExcludedText excl rest
  | .elem t _ cs rest =>
    (if memStr t excl then "" else deepExcludedText excl cs) ++ deepExcludedText excl rest

/-- Scanner deciding whether a character list contains three consecutive
newlines; `run` is the number of immediately preceding newlines already seen. -/
def hasTripleNLGo : Nat → List Char → Bool
  | _, [] => false
  | run, c :: cs =>
    if c = '\n' then
      if 2 ≤ run then true
      else hasTripleNLGo (run + 1) cs
    else hasTripleNLGo 0 cs

/-- True when the list neither starts nor ends with a whitespace character. -/
def cleanEdges (l : List Char) : Bool :=
  (match l.head? with
   | none => true
   | some c => !(isWS c)) &&
  (match l.getLast? with
   | none => true
   | some c => !(isWS c))

/-- The output invariant of claim C9: no run of 3 or more consecutive newline
characters, and no leading or trailing whitespace. -/
def outputClean (s : String) : Bool :=
  !(hasTripleNLGo 0 s.data) && cleanEdges s.data

/-- Does any element of the forest (at any depth) match `p`? -/
def containsMatch (p : String → List (String × String) → Bool) : Dom → Bool
  | .nil => false
  | .text _ rest => containsMatch p rest
  | .elem t a cs rest => p t a || containsMatch p cs || containsMatch p rest

/-! Concrete documents (each is the parse5/cheerio parse of the HTML named in
its doc comment, with the implicit html/head/body structure materialized). -/

/-- Parse of `<title>Doc</title><body><h1>Hi</h1><p>Some text here that is long
enough.</p></body>` (claim C1's end-to-end input): the parser places the title
inside `head`. -/
def doc1 : Dom :=
  .elem "html" []
    (.elem "head" [] (.elem "title" [] (.text "Doc" .nil) .nil)
      (.elem "body" []
        (.elem "h1" [] (.text "Hi" .nil)
          (.elem "p" [] (.text "Some text here that is long enough." .nil) .nil))
        .nil))
    .nil

/-- Parse of `<body><p aria-hidden="true">This hidden paragraph text stays.
</p></body>` (claim C2). -/
def doc2 : Dom :=
  .elem "html" []
    (.elem "head" [] .nil
      (.elem "body" []
        (.elem "p" [("aria-hidden", "true")]
          (.text "This hidden paragraph text stays." .nil) .nil)
        .nil))
    .nil

/-- Children forest of the `section` element of `doc3`: a `div` whose first
child is an `aside` (so the aside is at depth 2 below the section). -/
def doc3secKids : Dom :=
  .elem "div" []
    (.elem "aside" [] (.text "NOISE NOISE " .nil)
      (.text "real text here long enough" .nil))
    .nil

/-- Parse of `<body><section><div><aside>NOISE NOISE </aside>real text here
long enough</div></section></body>` (claim C3). -/
def doc3 : Dom :=
  .elem "html" []
    (.elem "head" [] .nil
      (.elem "body" [] (.elem "section" [] doc3secKids .nil) .nil))
    .nil

/-- Parse of `<body><h2>Hello World</h2><h2>hello world</h2></body>`
(claim C4). -/
def doc4 : Dom :=
  .elem "html" []
    (.elem "head" [] .nil
      (.elem "body" []
        (.elem "h2" [] (.text "Hello World" .nil)
          (.elem "h2" [] (.text "hello world" .nil) .nil))
        .nil))
    .nil

/-- Parse of `<body><p>short text!</p><h2>SHORT TEXT!</h2></body>` (claim C5):
the 11-character paragraph is in the 3..15 range. -/
def doc5 : Dom :=
  .elem "html" []
    (.elem "head" [] .nil
      (.elem "body" []
        (.elem "p" [] (.text "short text!" .nil)
          (.elem "h2" [] (.text "SHORT TEXT!" .nil) .nil))
        .nil))
    .nil

/-- Parse of `<body><p>123456789012345</p></body>`: 15-character paragraph. -/
def doc6a : Dom :=
  .elem "html" []
    (.elem "head" [] .nil
      (.elem "body" [] (.elem "p" [] (.text "123456789012345" .nil) .nil) .nil))
    .nil

/-- Parse of `<body><p>1234567890123456</p></body>`: 16-character paragraph. -/
def doc6b : Dom :=
  .elem "html" []
    (.elem "head" [] .nil
      (.elem "body" [] (.elem "p" [] (.text "1234567890123456" .nil) .nil) .nil))
    .nil

/-- Parse of `<body><p>12345678901234567890</p></body>`: 20 characters. -/
def doc6c : Dom :=
  .elem "html" []
    (.elem "head" [] .nil
      (.elem "body" [] (.elem "p" [] (.text "12345678901234567890" .nil) .nil) .nil))
    .nil

/-- Parse of `<body><p>123456789012345678901</p></body>`: 21 characters. -/
def doc6d : Dom :=
  .elem "html" []
    (.elem "head" [] .nil
      (.elem "body" [] (.elem "p" [] (.text "123456789012345678901" .nil) .nil) .nil))
    .nil

/-- Parse of `<body><div>12345678901234567890</div></body>`: 20 characters. -/
def doc6e : Dom :=
  .elem "html" []
    (.elem "head" [] .nil
      (.elem "body" [] (.elem "div" [] (.text "12345678901234567890" .nil) .nil) .nil))
    .nil

/-- Parse of `<body><div>123456789012345678901</div></body>`: 21 characters. -/
def doc6f : Dom :=
  .elem "html" []
    (.elem "head" [] .nil
      (.elem "body" [] (.elem "div" [] (.text "123456789012345678901" .nil) .nil) .nil))
    .nil

/-- Parse of `<body><p>Some long enough text here <span>INNER</span> tail</p>
</body>` (claim C8, structured pipeline). -/
def doc8s : Dom :=
  .elem "html" []
    (.elem "head" [] .nil
      (.elem "body" []
        (.elem "p" []
          (.text "Some long enough text here "
            (.elem "span" [] (.text "INNER" .nil) (.text " tail" .nil)))
          .nil)
        .nil))
    .nil

/-- Parse of `<body><blockquote>quote text <h2>Head</h2></blockquote></body>`
(claim C8, readable pipeline). -/
def doc8r : Dom :=
  .elem "html" []
    (.elem "head" [] .nil
      (.elem "body" []
        (.elem "blockquote" []
          (.text "quote text " (.elem "h2" [] (.text "Head" .nil) .nil))
          .nil)
        .nil))
    .nil

/-- A concrete stand-in for the platform URL constructor (claim C10's
witnesses): parses exactly one url, with a non-http protocol. -/
def parseStub : String → Option ParsedURL :=
  fun s => if s = "ftp://x" then some ⟨"ftp:", "ftp://x"⟩ else none

/-! Helper lemmas about node removal. -/

/-- After `removeMatching p`, no element matching `p` remains at any depth. -/
theorem removeMatching_complete (p : String → List (String × String) → Bool) (d : Dom) :
    containsMatch p (removeMatching p d) = false := by
  induction d with
  | nil => rfl
  | text s rest ih => simpa [removeMatching, containsMatch] using ih
  | elem t a cs rest ihcs ihrest =>
    cases hp : p t a with
    | true => simpa [removeMatching, hp] using ihrest
    | false => simp [removeMatching, containsMatch, hp, ihcs, ihrest]

/-- Removal only deletes nodes, so absence of `q`-matches is preserved. -/
theorem removeMatching_preserves (p q : String → List (String × String) → Bool) (d : Dom)
    (h : containsMatch q d = false) : containsMatch q (removeMatching p d) = false := by
  induction d with
  | nil => rfl
  | text s rest ih =>
    simp only [containsMatch] at h
    simpa [removeMatching, containsMatch] using ih h
  | elem t a cs rest ihcs ihrest =>
    simp only [containsMatch, Bool.or_eq_false_iff] at h
    obtain ⟨⟨hq, hcs⟩, hrest⟩ := h
    cases hp : p t a with
    | true => simpa [removeMatching, hp] using ihrest hrest
    | false => simp [removeMatching, containsMatch, hp, hq, ihcs hcs, ihrest hrest]

/-- A chain of removal passes preserves absence of `q`-matches. -/
theorem noiseFold_preserves (ps : List (String → List (String × String) → Bool)) :
    ∀ (d : Dom) (q : String → List (String × String) → Bool),
      containsMatch q d = false →
      containsMatch q (ps.foldl (fun acc p => removeMatching p acc) d) = false := by
  induction ps with
  | nil => intro d q h; exact h
  | cons p ps ih =>
    intro d q h
    rw [List.foldl_cons]
    exact ih (removeMatching p d) q (removeMatching_preserves p q d h)

/-- A chain of removal passes removes every match of each of its passes. -/
theorem noiseFold_removes (q : String → List (String × String) → Bool) :
    ∀ (ps : List (String → List (String × String) → Bool)), q ∈ ps → ∀ (d : Dom),
      containsMatch q (ps.foldl (fun acc p => removeMatching p acc) d) = false := by
  intro ps
  induction ps with
  | nil => intro h; cases h
  | cons p ps ih =>
    intro hq d
    rw [List.foldl_cons]
    rcases List.mem_cons.mp hq with h | h
    · subst h
      exact noiseFold_preserves ps (removeMatching q d) q (removeMatching_complete q d)
    · exact ih h (removeMatching p d)

/-! Helper lemmas for the word-wrap refinement. -/

/-- The source's loop step and the spec's greedy step agree on every state:
when the current line is empty both append-or-restart paths set the state to
the bare word, and when it is nonempty the two length conditions coincide. -/
theorem wordWrapStep_eq_greedy (w : Nat) (st : List String × String) (word : String) :
    wordWrapStep w st word = greedyStepSpec w st word := by
  obtain ⟨lines, cur⟩ := st
  by_cases hc : cur = ""
  · subst hc
    simp only [wordWrapStep, greedyStepSpec]
    split_ifs <;> simp_all
  · simp only [wordWrapStep, greedyStepSpec, if_neg hc]
    rw [Nat.add_right_comm]

/-! Helper lemmas for the assembler invariant (claim C9). -/

/-- The newline-collapse scanner never leaves three consecutive newlines, for
any checker state bounded by the scanner state. -/
theorem collapseNL_noTriple (l : List Char) :
    ∀ run r, r ≤ run → hasTripleNLGo r (collapseNLGo run l) = false := by
  induction l with
  | nil => intro run r _; rfl
  | cons c cs ih =>
    intro run r hr
    by_cases hc : c = '\n'
    · subst hc
      by_cases h2 : 2 ≤ run
      · rw [show collapseNLGo run ('\n' :: cs) = collapseNLGo (run + 1) cs by
          simp [collapseNLGo, h2]]
        exact ih (run + 1) r (hr.trans (Nat.le_succ run))
      · have hr2 : ¬ 2 ≤ r := fun h => h2 (h.trans hr)
        rw [show collapseNLGo run ('\n' :: cs) = '\n' :: collapseNLGo (run + 1) cs by
          simp [collapseNLGo, h2]]
        rw [show hasTripleNLGo r ('\n' :: collapseNLGo (run + 1) cs)
              = hasTripleNLGo (r + 1) (collapseNLGo (run + 1) cs) by
          simp [hasTripleNLGo, hr2]]
        exact ih (run + 1) (r + 1) (Nat.succ_le_succ hr)
    · rw [show collapseNLGo run (c :: cs) = c :: collapseNLGo 0 cs by
        simp [collapseNLGo, hc]]
      rw [show hasTripleNLGo r (c :: collapseNLGo 0 cs) = hasTripleNLGo 0 (collapseNLGo 0 cs) by
        simp [hasTripleNLGo, hc]]
      exact ih 0 0 (Nat.le_refl 0)

/-- The triple-newline checker is monotone in its run counter. -/
theorem hasTriple_mono (l : List Char) :
    ∀ r r', r' ≤ r → hasTripleNLGo r l = false → hasTripleNLGo r' l = false := by
  induction l with
  | nil => intro r r' _ _; rfl
  | cons c cs ih =>
    intro r r' hrr h
    by_cases hc : c = '\n'
    · subst hc
      by_cases h2 : 2 ≤ r
      · exfalso; simp [hasTripleNLGo, h2] at h
      · have h2' : ¬ 2 ≤ r' := fun hh => h2 (hh.trans hrr)
        simp only [hasTripleNLGo, if_pos rfl, if_neg h2] at h
        simp only [hasTripleNLGo, if_pos rfl, if_neg h2']
        exact ih (r + 1) (r' + 1) (Nat.succ_le_succ hrr) h
    · simp only [hasTripleNLGo, if_neg hc] at h ⊢
      exact h

/-- A suffix of a triple-free list is triple-free. -/
theorem hasTriple_append_right (s : List Char) :
    ∀ (t : List Char) r, hasTripleNLGo r (s ++ t) = false → hasTripleNLGo 0 t = false := by
  induction s with
  | nil => intro t r h; exact hasTriple_mono t r 0 (Nat.zero_le r) h
  | cons c s ih =>
    intro t r h
    rw [List.cons_append] at h
    by_cases hc : c = '\n'
    · subst hc
      by_cases h2 : 2 ≤ r
      · exfalso; simp [hasTripleNLGo, h2] at h
      · simp only [hasTripleNLGo, if_pos rfl, if_neg h2] at h
        exact ih t (r + 1) h
    · simp only [hasTripleNLGo, if_neg hc] at h
      exact ih t 0 h

/-- A prefix of a triple-free list is triple-free (at the same counter). -/
theorem hasTriple_append_left (s : List Char) :
    ∀ (w : List Char) r, hasTripleNLGo r (s ++ w) = false → hasTripleNLGo r s = false := by
  induction s with
  | nil => intro w r _; rfl
  | cons c s ih =>
    intro w r h
    rw [List.cons_append] at h
    by_cases hc : c = '\n'
    · subst hc
      by_cases h2 : 2 ≤ r
      · exfalso; simp [hasTripleNLGo, h2] at h
      · simp only [hasTripleNLGo, if_pos rfl, if_neg h2] at h ⊢
        exact ih w (r + 1) h
    · simp only [hasTripleNLGo, if_neg hc] at h ⊢
      exact ih w 0 h

/-- `dropWhile` removes a prefix: the original list is some prefix plus it. -/
theorem dropWhile_append_self (p : Char → Bool) (l : List Char) :
    ∃ s, s ++ l.dropWhile p = l := by
  induction l with
  | nil => exact ⟨[], rfl⟩
  | cons c cs ih =>
    cases hp : p c with
    | true =>
      obtain ⟨s, hs⟩ := ih
      exact ⟨c :: s, by simp [List.dropWhile, hp, hs]⟩
    | false => exact ⟨[], by simp [List.dropWhile, hp]⟩

/-- Trimming both ends preserves triple-freeness. -/
theorem trimCL_noTriple (l : List Char) (h : hasTripleNLGo 0 l = false) :
    hasTripleNLGo 0 (trimCL l) = false := by
  have h1 : hasTripleNLGo 0 (l.dropWhile isWS) = false := by
    obtain ⟨s, hs⟩ := dropWhile_append_self isWS l
    exact hasTriple_append_right s _ 0 (by rw [hs]; exact h)
  obtain ⟨s2, hs2⟩ := dropWhile_append_self isWS (l.dropWhile isWS).reverse
  have hu : l.dropWhile isWS = trimCL l ++ s2.reverse := by
    have h3 := congrArg List.reverse hs2
    rw [List.reverse_append, List.reverse_reverse] at h3
    exact h3.symm
  exact hasTriple_append_left (trimCL l) s2.reverse 0 (by rw [← hu]; exact h1)

/-- The head of `dropWhile isWS` is not whitespace. -/
theorem head_dropWhile_isWS (l : List Char) :
    ∀ c, (l.dropWhile isWS).head? = some c → isWS c = false := by
  induction l with
  | nil => intro c h; simp at h
  | cons x xs ih =>
    intro c h
    cases hx : isWS x with
    | true =>
      rw [show (x :: xs).dropWhile isWS = xs.dropWhile isWS by simp [List.dropWhile, hx]] at h
      exact ih c h
    | false =>
      rw [show (x :: xs).dropWhile isWS = x :: xs by simp [List.dropWhile, hx]] at h
      simp only [List.head?_cons, Option.some.injEq] at h
      rw [← h]; exact hx

/-- Both edges of a trimmed character list are non-whitespace. -/
theorem cleanEdges_trimCL (l : List Char) : cleanEdges (trimCL l) = true := by
  have hlast : ∀ c, (trimCL l).getLast? = some c → isWS c = false := by
    intro c h
    rw [show trimCL l = ((l.dropWhile isWS).reverse.dropWhile isWS).reverse from rfl,
      List.getLast?_reverse] at h
    exact head_dropWhile_isWS _ c h
  have hhead : ∀ c, (trimCL l).head? = some c → isWS c = false := by
    intro c h
    obtain ⟨s2, hs2⟩ := dropWhile_append_self isWS (l.dropWhile isWS).reverse
    have hu : l.dropWhile isWS = trimCL l ++ s2.reverse := by
      have h3 := congrArg List.reverse hs2
      rw [List.reverse_append, List.reverse_reverse] at h3
      exact h3.symm
    have hh : (l.dropWhile isWS).head? = some c := by
      rw [hu]
      cases htl : trimCL l with
      | nil => rw [htl] at h; simp at h
      | cons a t =>
        rw [htl] at h
        simp only [List.head?_cons, Option.some.injEq] at h
        simp [h]
    exact head_dropWhile_isWS l c hh
  unfold cleanEdges
  cases hh : (trimCL l).head? with
  | none =>
    cases hl : (trimCL l).getLast? with
    | none => rfl
    | some c => simp [hlast c hl]
  | some c =>
    cases hl : (trimCL l).getLast? with
    | none => simp [hhead c hh]
    | some c2 => simp [hhead c hh, hlast c2 hl]

/-- A trim applied to a triple-free string yields a clean output string. -/
theorem outputClean_jsTrim (s : String) (h : hasTripleNLGo 0 s.data = false) :
    outputClean (jsTrim s) = true := by
  unfold outputClean jsTrim
  simp only [String.data]
  rw [trimCL_noTriple s.data h, cleanEdges_trimCL]
  rfl

/-- The readable-text assembler always produces a clean string. -/
theorem outputClean_cleanupText (lines : List String) :
    outputClean (cleanupText lines) = true := by
  unfold cleanupText
  apply outputClean_jsTrim
  apply trimCL_noTriple
  exact collapseNL_noTriple (joinNL lines).data 0 0 (Nat.le_refl 0)

/-- The structured assembler always produces a clean string. -/
theorem outputClean_cleanupStructured (lines : List String) :
    outputClean (cleanupStructured lines) = true := by
  unfold cleanupStructured
  apply outputClean_jsTrim
  exact collapseNL_noTriple (joinNL lines).data 0 0 (Nat.le_refl 0)

/-! Claim theorems. -/

/-- C1 (counterexample): the end-to-end claim is false on the code.  For the
parsed input `<title>Doc</title><body><h1>Hi</h1><p>Some text here that is
long enough.</p></body>`, the readable-text pipeline does NOT produce the
claimed title block, `HI` heading and paragraph, because the noise filter
removes `head` (and the title inside it) before the title is read, and the
2-character "Hi" fails the minimum-length-3 gate. -/
theorem C1_counterexample :
    extractText doc1 ≠ "Doc\n===\n\nHI\n==\n\nSome text here that is long enough." := by
  decide

/-- C1 (amended): for that input the readable-text pipeline produces exactly
the word-wrapped paragraph text, with no title block and no heading. -/
theorem C1_theorem :
    extractText doc1 = "Some text here that is long enough." := rfl

/-- C2 (counterexample): in the structured pipeline an element with
`aria-hidden="true"` DOES contribute its text — `extractStructuredText` has no
aria-hidden removal pass, so the hidden paragraph of `doc2` is emitted. -/
theorem C2_counterexample :
    extractStructuredText doc2 = "This hidden paragraph text stays." := rfl

/-- C2 (amended): only the readable-text pipeline filters
`aria-hidden="true"`: its noise filter leaves no such element in any document
(so no such element is seen by its traversal), and on `doc2` it produces
nothing; the structured pipeline does not filter them
(see `C2_counterexample`). -/
theorem C2_theorem :
    (∀ d : Dom, containsMatch (attrIs "aria-hidden" "true") (noiseFilterText d) = false) ∧
    extractText doc2 = "" := by
  constructor
  · intro d
    unfold noiseFilterText
    refine noiseFold_removes _ readableNoisePreds ?_ d
    unfold readableNoisePreds
    repeat first | exact List.Mem.head _ | apply List.Mem.tail
  · rfl

/-- C3 (counterexample): the readable-text per-block extraction does NOT
exclude `aside` subtrees at every depth.  For the `section` candidate of
`doc3`, whose `aside` sits at depth 2 (inside a `div`), the code's extraction
(`childExcludedText`, which prunes direct children only) keeps the aside text,
while the spec's any-depth exclusion (`deepExcludedText`) drops it, and the
aside text reaches the pipeline output. -/
theorem C3_counterexample :
    childExcludedText readableExcl doc3secKids = "NOISE NOISE real text here long enough" ∧
    deepExcludedText readableExcl doc3secKids = "real text here long enough" ∧
    childExcludedText readableExcl doc3secKids ≠ deepExcludedText readableExcl doc3secKids ∧
    extractText doc3 = "NOISE NOISE real text here long enough" := by
  refine ⟨rfl, rfl, ?_, rfl⟩
  decide

/-- C3 (amended): in the readable-text pipeline, nested `script`, `style`,
`nav`, `footer` and `header` subtrees are excluded at ANY depth — but only
because the noise filter has already removed them from the whole document
before traversal — while `aside` subtrees are excluded only when the aside is
a DIRECT child of the candidate element. -/
theorem C3_theorem :
    (∀ d : Dom,
      containsMatch (tagIs "script") (noiseFilterText d) = false ∧
      containsMatch (tagIs "style") (noiseFilterText d) = false ∧
      containsMatch (tagIs "nav") (noiseFilterText d) = false ∧
      containsMatch (tagIs "footer") (noiseFilterText d) = false ∧
      containsMatch (tagIs "header") (noiseFilterText d) = false) ∧
    (∀ (a : List (String × String)) (cs rest : Dom),
      childExcludedText readableExcl (Dom.elem "aside" a cs rest)
        = childExcludedText readableExcl rest) := by
  constructor
  · intro d
    refine ⟨?_, ?_, ?_, ?_, ?_⟩ <;>
    · unfold noiseFilterText
      refine noiseFold_removes _ readableNoisePreds ?_ d
      unfold readableNoisePreds
      repeat first | exact List.Mem.head _ | apply List.Mem.tail
  · intro a cs rest
    show (if memStr "aside" readableExcl then "" else textContent cs)
        ++ childExcludedText readableExcl rest = childExcludedText readableExcl rest
    rw [if_pos (by decide)]
    exact congrArg String.mk (List.nil_append _)

/-- C4: a block whose lowercased normalized text is already in the seen set is
dropped entirely — the state (lines AND seen set) is unchanged — and on the
concrete case-only duplicate document `doc4` only the first `h2` produces
output and the seen set holds a single entry. -/
theorem C4_theorem :
    (∀ (st : TState) (tag text : String),
      memStr (lowerString text) st.seen = true → emitReadable st tag text = st) ∧
    (extractTextState doc4).seen = ["hello world"] ∧
    extractText doc4 = "Hello World\n-----------" := by
  refine ⟨?_, rfl, rfl⟩
  intro st tag text h
  unfold emitReadable
  rw [if_pos (Or.inr h)]

/-- C4 (witness): applying the dedup-drop at a concrete seen state. -/
theorem C4_witness : emitReadable ⟨[], ["ab"]⟩ "h2" "AB" = ⟨[], ["ab"]⟩ :=
  C4_theorem.1 ⟨[], ["ab"]⟩ "h2" "AB" (by decide)

/-- C5: every block with normalized text of length ≥ 3 that is not yet seen is
added (lowercased) to the seen set whatever its formatting case does; a
p/article/section/main block with text length 3..15 changes the seen set but
emits no lines; and on `doc5` an 11-character paragraph emits nothing yet
suppresses a later case-insensitive duplicate heading. -/
theorem C5_theorem :
    (∀ (st : TState) (tag text : String),
      3 ≤ text.length → memStr (lowerString text) st.seen = false →
      (emitReadable st tag text).seen = st.seen ++ [lowerString text]) ∧
    (∀ (st : TState) (tag text : String),
      (tag = "p" ∨ tag = "article" ∨ tag = "section" ∨ tag = "main") →
      3 ≤ text.length → text.length ≤ 15 →
      memStr (lowerString text) st.seen = false →
      emitReadable st tag text = ⟨st.lines, st.seen ++ [lowerString text]⟩) ∧
    extractText doc5 = "" ∧
    (extractTextState doc5).seen = ["short text!"] := by
  refine ⟨?_, ?_, rfl, rfl⟩
  · intro st tag text h3 hm
    unfold emitReadable
    rw [if_neg (by simp [hm, Nat.not_lt.mpr h3])]
    split_ifs <;> rfl
  · intro st tag text htag h3 h15 hm
    unfold emitReadable
    rw [if_neg (by simp [hm, Nat.not_lt.mpr h3])]
    rcases htag with rfl | rfl | rfl | rfl <;>
      simp [Nat.not_lt.mpr h15]

/-- C5 (witness): concrete instances of both general parts. -/
theorem C5_witness :
    (emitReadable ⟨[], []⟩ "h2" "abc").seen = ["abc"] ∧
    emitReadable ⟨[], []⟩ "p" "a1234567890123" = ⟨[], ["a1234567890123"]⟩ :=
  ⟨C5_theorem.1 ⟨[], []⟩ "h2" "abc" (by decide) (by decide),
   C5_theorem.2.1 ⟨[], []⟩ "p" "a1234567890123" (Or.inl rfl) (by decide) (by decide) (by decide)⟩

/-- C6: length gating at the boundaries.  Readable-text pipeline: a paragraph
of exactly 15 characters produces no output, 16 characters produces output;
structured pipeline: a `p` or `div` of exactly 20 characters produces no
output, 21 characters produces output. -/
theorem C6_theorem :
    extractText doc6a = "" ∧
    extractText doc6b = "1234567890123456" ∧
    extractStructuredText doc6c = "" ∧
    extractStructuredText doc6d = "123456789012345678901" ∧
    extractStructuredText doc6e = "" ∧
    extractStructuredText doc6f = "123456789012345678901" :=
  ⟨rfl, rfl, rfl, rfl, rfl, rfl⟩

/-- C7: `wordWrap` implements exactly the spec's greedy line packing
(`greedyWrapSpec`) on every input, and the concrete packings behave as
claimed: width-9 wrap of "aaaa bbbb cccc dddd", and an over-long word emitted
unsplit on its own line. -/
theorem C7_theorem :
    (∀ (text : String) (maxWidth : Nat), wordWrap text maxWidth = greedyWrapSpec text maxWidth) ∧
    wordWrap "aaaa bbbb cccc dddd" 9 = "aaaa bbbb\ncccc dddd" ∧
    wordWrap "aa supercalifragilistic bb" 5 = "aa\nsupercalifragilistic\nbb" := by
  refine ⟨?_, rfl, rfl⟩
  intro text w
  have hf := @List.foldl_ext (List String × String) String (wordWrapStep w) (greedyStepSpec w)
    ([], "") ((splitOnSpace text.data).map String.mk) (fun a b _ => wordWrapStep_eq_greedy w a b)
  simp only [wordWrap, greedyWrapSpec]
  rw [hf]

/-- C8: skip-rule behaviour.  Structured pipeline: the `span` inside the `p`
of `doc8s` contributes no independent output line — its text appears only
folded into the paragraph's text.  Readable-text pipeline: the `h2` inside the
`blockquote` of `doc8r` is still emitted as an underlined heading, because
headings are exempt from the ancestor-container skip. -/
theorem C8_theorem :
    extractStructuredText doc8s = "Some long enough text here INNER tail" ∧
    extractText doc8r = "\"quote text Head\"\n\nHead\n----" :=
  ⟨rfl, rfl⟩

/-- C9: for every input document, both pipeline outputs contain no run of 3 or
more consecutive newline characters and no leading or trailing whitespace; and
the assembler on the buffer ["a","","","","b"] yields exactly "a\n\nb". -/
theorem C9_theorem :
    (∀ d : Dom,
      outputClean (extractText d) = true ∧ outputClean (extractStructuredText d) = true) ∧
    cleanupText ["a", "", "", "", "b"] = "a\n\nb" :=
  ⟨fun _ => ⟨outputClean_cleanupText _, outputClean_cleanupStructured _⟩, rfl⟩

/-- C10 (counterexample): the claim is false for the empty url string, which
the platform URL constructor rejects (modelled by `parseStub "" = none`), yet
the handler answers 400 "URL is required" — not "Invalid URL format" — because
the falsy check runs first. -/
theorem C10_counterexample :
    parseStub "" = none ∧
    POST parseStub (some "") = PostOutcome.respond 400 "URL is required" ∧
    POST parseStub (some "") ≠ PostOutcome.respond 400 "Invalid URL format" := by
  refine ⟨rfl, rfl, ?_⟩
  decide

/-- C10 (amended): the handler validates before fetching, for any behaviour of
the external URL constructor: a missing url — and also the empty string —
yields 400 "URL is required"; a NONEMPTY url that fails to parse, or parses
with a protocol other than `http:`/`https:`, yields 400 "Invalid URL format";
and the fetch (hence extraction) is reached only when parsing succeeded with
an http/https protocol. -/
theorem C10_theorem (parseURL : String → Option ParsedURL) :
    POST parseURL none = PostOutcome.respond 400 "URL is required" ∧
    POST parseURL (some "") = PostOutcome.respond 400 "URL is required" ∧
    (∀ url, url ≠ "" → parseURL url = none →
      POST parseURL (some url) = PostOutcome.respond 400 "Invalid URL format") ∧
    (∀ url p, url ≠ "" → parseURL url = some p →
      memStr p.protocol ["http:", "https:"] = false →
      POST parseURL (some url) = PostOutcome.respond 400 "Invalid URL format") ∧
    (∀ url u, POST parseURL (some url) = PostOutcome.fetch u →
      ∃ p, parseURL url = some p ∧ memStr p.protocol ["http:", "https:"] = true) := by
  refine ⟨rfl, rfl, ?_, ?_, ?_⟩
  · intro url hne hp
    simp [POST, hne, hp]
  · intro url p hne hp hm
    simp [POST, hne, hp, hm]
  · intro url u h
    by_cases hne : url = ""
    · subst hne; simp [POST] at h
    · cases hp : parseURL url with
      | none => simp [POST, hne, hp] at h
      | some p =>
        cases hm : memStr p.protocol ["http:", "https:"] with
        | false => simp [POST, hne, hp, hm] at h
        | true => exact ⟨p, rfl, hm⟩

/-- C10 (witness): concrete rejections through the amended theorem, using the
stub URL constructor. -/
theorem C10_witness :
    POST parseStub (some "nope") = PostOutcome.respond 400 "Invalid URL format" ∧
    POST parseStub (some "ftp://x") = PostOutcome.respond 400 "Invalid URL format" :=
  ⟨(C10_theorem parseStub).2.2.1 "nope" (by decide) (by decide),
   (C10_theorem parseStub).2.2.2.1 "ftp://x" ⟨"ftp:", "ftp://x"⟩ (by decide) (by decide) (by decide)⟩
